import Mathlib

/-!
A shallow embedding of `scripts/parallelMappingEvaluation.py`: the
reverse-complement helper, the per-sample work planner and recursive
fan-out scheduler embedded in `recursively_run_samples`, and the
streaming statistics engine of `run_stats`, together with theorems
checking the specification's claims about them.

Conventions: Python strings are `List Char`; Python `None`-able values are
`Option`; timestamps and byte sizes are `Int`; floating-point metric
values (scores ratios, mapping qualities, identities) are `ℚ`, which models
the exact arithmetic the claims are about; Python 2's ordering of `None`
against numbers (None is smaller than every number) is modelled explicitly
where the source relies on it.
-/

/-- Python 2 `maketrans("ACGTN", "TGCAN")` applied to one character:
complementary base for A, C, G, T, identity on every other character
(N maps to N). -/
def complementBase (c : Char) : Char :=
  if c = 'A' then 'T'
  else if c = 'C' then 'G'
  else if c = 'G' then 'C'
  else if c = 'T' then 'A'
  else c

/-- `reverse_complement` (lines 98-110): translate the sequence through the
complement table, then reverse it. -/
def reverse_complement (sequence : List Char) : List Char :=
  (sequence.map complementBase).reverse

/-- `count_Ns` (lines 112-122): the number of N bases in a DNA sequence. -/
def count_Ns (sequence : List Char) : Nat :=
  sequence.count 'N'

/-- The complement table is an involution on every character: A and T swap,
C and G swap, every other character (N included) is fixed. -/
theorem complementBase_involutive (c : Char) :
    complementBase (complementBase c) = c := by
  unfold complementBase
  split_ifs <;> simp_all

/-! ## Work planner

`recursively_run_samples` (lines 779-854) decides, for each sample in the
current batch, whether to schedule an alignment job, a stats-only job, or
nothing.  Its decision depends only on the staleness options and the store
metadata of the sample's alignment (`.gam`) and stats (`.json`) artifacts,
so it is embedded as a pure classifier. -/

/-- The staleness options consulted by `recursively_run_samples`:
`overwrite`, `restat`, `min_gam_size`, `alignments_too_old`,
`stats_too_old`.  Timestamps are modelled as integers; `none` means the
cutoff option was not supplied. -/
structure PlannerOptions where
  overwrite : Bool
  restat : Bool
  min_gam_size : Int
  alignments_too_old : Option Int
  stats_too_old : Option Int
deriving DecidableEq

/-- Python 2 `<` with a possibly-`None` left operand: `None` is less than
every number (used by `gam_size < options.min_gam_size` on line 801 when
the artifact is absent). -/
def pyLtOpt (a : Option Int) (b : Int) : Bool :=
  match a with
  | none => true
  | some x => decide (x < b)

/-- The first branch condition of lines 797-801: the sample needs a fresh
alignment when `overwrite` is set, the GAM's mtime is absent, the GAM is
older than the `alignments_too_old` cutoff, or the GAM is smaller than
`min_gam_size`. -/
def needs_alignment_cond (o : PlannerOptions) (gam_size gam_mtime : Option Int) :
    Bool :=
  o.overwrite || gam_mtime.isNone ||
    (match o.alignments_too_old, gam_mtime with
     | some cutoff, some m => decide (m < cutoff)
     | some _, none => true   -- Python 2: None < datetime; unreachable after `.isNone`
     | none, _ => false) ||
    pyLtOpt gam_size o.min_gam_size

/-- The `elif` condition of lines 833-836: the existing GAM can be kept but
the stats need recomputing when `restat` is set, the stats mtime is absent,
or the stats are older than the `stats_too_old` cutoff. -/
def needs_stats_cond (o : PlannerOptions) (stats_mtime : Option Int) : Bool :=
  o.restat || stats_mtime.isNone ||
    (match o.stats_too_old, stats_mtime with
     | some cutoff, some m => decide (m < cutoff)
     | some _, none => true   -- Python 2: None < datetime; unreachable after `.isNone`
     | none, _ => false)

/-- The three ways the planner can treat one sample. -/
inductive SampleAction where
  | needsAlignment
  | needsStatsOnly
  | complete
deriving DecidableEq

/-- The per-sample decision of lines 797-854: run an alignment job, run a
stats-only job, or skip the sample. -/
def classify_sample (o : PlannerOptions) (gam_size gam_mtime stats_mtime : Option Int) :
    SampleAction :=
  if needs_alignment_cond o gam_size gam_mtime then SampleAction.needsAlignment
  else if needs_stats_cond o stats_mtime then SampleAction.needsStatsOnly
  else SampleAction.complete

/-- C9: for every string over the alphabet A, C, G, T, N, the
reverse-complement function is an involution, and its output has the same
length as its input. -/
theorem c9_reverse_complement_involution (s : List Char)
    (_halpha : ∀ c ∈ s, c ∈ ['A', 'C', 'G', 'T', 'N']) :
    reverse_complement (reverse_complement s) = s ∧
      (reverse_complement s).length = s.length := by
  constructor
  · unfold reverse_complement
    rw [List.map_reverse, List.reverse_reverse, List.map_map]
    have : ∀ c ∈ s, (complementBase ∘ complementBase) c = id c := by
      intro c _
      simp [Function.comp, complementBase_involutive]
    rw [List.map_congr_left this, List.map_id]
  · simp [reverse_complement]

/-- Witness for C9 at the concrete string ACGTN. -/
theorem c9_witness :
    reverse_complement (reverse_complement ['A', 'C', 'G', 'T', 'N']) =
        ['A', 'C', 'G', 'T', 'N'] ∧
      (reverse_complement ['A', 'C', 'G', 'T', 'N']).length =
        (['A', 'C', 'G', 'T', 'N'] : List Char).length :=
  c9_reverse_complement_involution ['A', 'C', 'G', 'T', 'N'] (by decide)

/-- C8: a sample whose alignment artifact exists (its size is known) but is
strictly smaller than `min_gam_size` is classified `needsAlignment`,
whatever the stats artifact's state, the `restat` flag, and every other
option: the undersized-GAM disjunct of the first branch fires before any
stats-only condition is consulted. -/
theorem c8_small_gam_needs_alignment (o : PlannerOptions) (s : Int)
    (gam_mtime stats_mtime : Option Int) (hsmall : s < o.min_gam_size) :
    classify_sample o (some s) gam_mtime stats_mtime =
      SampleAction.needsAlignment := by
  have hcond : needs_alignment_cond o (some s) gam_mtime = true := by
    simp [needs_alignment_cond, pyLtOpt, hsmall]
  simp [classify_sample, hcond]

/-- Witness for C8: a 5-byte GAM against a 100-byte minimum, with fresh
stats and `restat` off, is still sent back for alignment. -/
theorem c8_witness :
    classify_sample ⟨false, false, 100, none, none⟩ (some 5) (some 1000)
        (some 1000) = SampleAction.needsAlignment :=
  c8_small_gam_needs_alignment ⟨false, false, 100, none, none⟩ 5 (some 1000)
    (some 1000) (by decide)

/-- Counterexample to C2 as stated: a sample with no stats artifact but a
large (1000 ≥ 100), un-aged alignment artifact is classified
`needsStatsOnly` by lines 833-847, not `needsAlignment`. -/
theorem c2_counterexample :
    classify_sample ⟨false, false, 100, none, none⟩ (some 1000) (some 50)
        none ≠ SampleAction.needsAlignment := by
  decide

/-- C2 as amended: a sample with no stats artifact is never `complete` —
it is classified `needsAlignment` exactly when `overwrite` is set or the
alignment artifact is absent, too old, or too small, and `needsStatsOnly`
otherwise (when a sufficiently large, sufficiently recent alignment already
exists). -/
theorem c2_amended_no_stats_never_complete (o : PlannerOptions)
    (gam_size gam_mtime : Option Int) :
    classify_sample o gam_size gam_mtime none =
        (if needs_alignment_cond o gam_size gam_mtime then
          SampleAction.needsAlignment
        else SampleAction.needsStatsOnly) ∧
      classify_sample o gam_size gam_mtime none ≠ SampleAction.complete := by
  have hstats : needs_stats_cond o none = true := by
    simp [needs_stats_cond]
  constructor
  · by_cases h : needs_alignment_cond o gam_size gam_mtime <;>
      simp [classify_sample, h, hstats]
  · by_cases h : needs_alignment_cond o gam_size gam_mtime <;>
      simp [classify_sample, h, hstats]

/-! ## Fan-out scheduler

`recursively_run_samples` (lines 743-887) submits the first `num_per_call`
samples of its list directly (an alignment child job or a stats-only
follow-on job per sample, found by the planner above) and then hands the
remaining samples to recursive child jobs: all of them in one child when
fewer than `num_per_call` remain, otherwise `num_per_call + 1` contiguous
slices of `part_size = remaining / num_per_call` samples each, skipping
empty slices.  `run_alignment` (lines 1015-1027) uploads its artifact and
then submits its own `run_stats` follow-on job. -/

/-- One candidate sample together with the store metadata the planner reads
for it (the GAM artifact's size and mtime and the stats artifact's mtime,
lines 789-795); `none` means the artifact is absent. -/
structure SampleMeta where
  sid : Nat
  gam_size : Option Int
  gam_mtime : Option Int
  stats_mtime : Option Int
deriving DecidableEq

/-- One Toil submission made by the scheduler: `alignChild s` is
`addChildJobFn(run_alignment, ...)` (line 828), `statsFollowOn s` is
`addFollowOnJobFn(run_stats, ...)` (line 845) — a follow-on runs only after
all child jobs of the submitting job — and `recurseChild part` is
`addChildJobFn(recursively_run_samples, part, ...)` (lines 863 and 885). -/
inductive TaskSubmission where
  | alignChild (sid : Nat)
  | statsFollowOn (sid : Nat)
  | recurseChild (part : List SampleMeta)
deriving DecidableEq

/-- Whether a submission is an independent child job (follow-on jobs are
ordered after every child job of the same submitting job, so they are not
independent of their siblings). -/
def submissionIsChild : TaskSubmission → Bool
  | TaskSubmission.alignChild _ => true
  | TaskSubmission.statsFollowOn _ => false
  | TaskSubmission.recurseChild _ => true

/-- The leaf submission the loop body of lines 779-854 makes for one
sample: an alignment child job, a stats follow-on job, or nothing. -/
def leafFor (o : PlannerOptions) (s : SampleMeta) : Option TaskSubmission :=
  match classify_sample o s.gam_size s.gam_mtime s.stats_mtime with
  | SampleAction.needsAlignment => some (TaskSubmission.alignChild s.sid)
  | SampleAction.needsStatsOnly => some (TaskSubmission.statsFollowOn s.sid)
  | SampleAction.complete => none

/-- All submissions one invocation of `recursively_run_samples` makes, in
order: the leaf submissions for the first `B` samples, then the recursive
child submissions for the remainder (lines 856-887). -/
def node_submissions (o : PlannerOptions) (B : Nat) (samples : List SampleMeta) :
    List TaskSubmission :=
  let later := samples.drop B
  let leafSubs := (samples.take B).filterMap (leafFor o)
  let recSubs : List TaskSubmission :=
    if later.length = 0 then []
    else if later.length < B then [TaskSubmission.recurseChild later]
    else
      let q := later.length / B
      (List.range (B + 1)).filterMap (fun i =>
        let part := (later.drop (i * q)).take q
        if part.length > 0 then some (TaskSubmission.recurseChild part) else none)
  leafSubs ++ recSubs

/-- The full recursive expansion of `recursively_run_samples` down to leaf
submissions: the leaves this node submits itself, followed by the leaves of
every recursive child, mirroring lines 856-887 (all of the remainder in one
recursive call when it is shorter than `B`, otherwise `B + 1` slices of
`remainder / B` samples, empty slices skipped). -/
def all_leaf_tasks (o : PlannerOptions) (B : Nat) (samples : List SampleMeta) :
    List TaskSubmission :=
  if (samples.drop B).length = 0 then
    (samples.take B).filterMap (leafFor o)
  else if (samples.drop B).length < B then
    (samples.take B).filterMap (leafFor o) ++ all_leaf_tasks o B (samples.drop B)
  else
    (samples.take B).filterMap (leafFor o) ++
      ((List.range (B + 1)).map (fun i =>
        if 0 < (((samples.drop B).drop (i * ((samples.drop B).length / B))).take
            ((samples.drop B).length / B)).length then
          all_leaf_tasks o B
            (((samples.drop B).drop (i * ((samples.drop B).length / B))).take
              ((samples.drop B).length / B))
        else [])).flatten
termination_by samples.length
decreasing_by
  · simp only [List.length_drop] at *
    omega
  · rename_i h0 h1 hp
    have hle : (((samples.drop B).drop (i * ((samples.drop B).length / B))).take
        ((samples.drop B).length / B)).length ≤ (samples.drop B).length / B := by
      simp [List.length_take]
    have hqpos : 0 < (samples.drop B).length / B := lt_of_lt_of_le hp hle
    have hB : 0 < B := by
      rcases Nat.eq_zero_or_pos B with hB0 | hB0
      · rw [hB0, Nat.div_zero] at hqpos; exact absurd hqpos (by simp)
      · exact hB0
    have hdiv : (samples.drop B).length / B ≤ (samples.drop B).length :=
      Nat.div_le_self _ _
    have hdlen : (samples.drop B).length = samples.length - B := by
      simp [List.length_drop]
    omega

/-- A staleness configuration with nothing forced: no overwrite, no restat,
a 100-byte GAM size floor, no age cutoffs. -/
def plannerOpts0 : PlannerOptions := ⟨false, false, 100, none, none⟩

/-- `n` samples named `0, …, n-1`, none of which has any artifact yet, so
every one of them is schedulable and needs alignment. -/
def mkSamples (n : Nat) : List SampleMeta :=
  (List.range n).map (fun i => ⟨i, none, none, none⟩)

/-- When at most `B` samples are pending, `recursively_run_samples` submits
their leaf jobs and recurses no further. -/
theorem all_leaf_tasks_of_le (o : PlannerOptions) (B : Nat)
    (samples : List SampleMeta) (h : samples.length ≤ B) :
    all_leaf_tasks o B samples = samples.filterMap (leafFor o) := by
  rw [all_leaf_tasks]
  have h0 : (samples.drop B).length = 0 := by
    simp only [List.length_drop]
    omega
  simp [h0, List.take_of_length_le h]

/-- C1 fails on the code: with 25 schedulable samples and batch size 10,
the scheduler submits only 21 leaf tasks, not 25.  After the first batch of
10, the 15 postponed samples are split into `part_size = 15 / 10 = 1`-sized
slices, and the `10 + 1` slices of lines 875-887 cover only 11 of the 15,
silently dropping samples 21-24 (the third conjunct exhibits sample 24's
alignment task missing from the expansion).  The code's own comment — "Do 1
more part for any remainder" — shows the extra slice was meant to catch the
whole remainder, so this is a slip in the code rather than in the claim. -/
theorem c1_scheduler_drops_samples :
    (mkSamples 25).length = 25 ∧
      (all_leaf_tasks plannerOpts0 10 (mkSamples 25)).length = 21 ∧
      TaskSubmission.alignChild 24 ∉ all_leaf_tasks plannerOpts0 10 (mkSamples 25) := by
  refine ⟨by decide, ?_, ?_⟩
  · rw [all_leaf_tasks]
    norm_num [mkSamples, List.range_succ, leafFor, classify_sample,
      needs_alignment_cond, needs_stats_cond, plannerOpts0, all_leaf_tasks_of_le]
    decide
  · rw [all_leaf_tasks]
    norm_num [mkSamples, List.range_succ, leafFor, classify_sample,
      needs_alignment_cond, needs_stats_cond, plannerOpts0, all_leaf_tasks_of_le]

/-- Counterexample to C3 as stated: in a batch holding one sample that
needs alignment and one that needs only stats, the stats-only leaf is
submitted with `addFollowOnJobFn` (line 845), a run-after submission that
orders it behind every child job of the scheduling node — so not every leaf
task is free of ordering dependencies on its siblings. -/
theorem c3_counterexample :
    ¬ ∀ sub ∈ node_submissions plannerOpts0 10
        [⟨0, none, none, none⟩, ⟨1, some 1000, some 50, none⟩],
      submissionIsChild sub = true := by
  decide

/-- C3 as amended: a sample classified `needsAlignment` is submitted as an
independent child job (no ordering dependency on siblings), while a sample
classified `needsStatsOnly` is submitted as a follow-on job of its
scheduling node, which runs only after all of that node's child jobs; the
alignment-leaf → own-stats-follow-up edge of `run_alignment` (line 1025)
remains in place. -/
theorem c3_amended_submission_kinds (o : PlannerOptions) (B : Nat)
    (samples : List SampleMeta) (s : SampleMeta) (hs : s ∈ samples.take B) :
    (classify_sample o s.gam_size s.gam_mtime s.stats_mtime =
        SampleAction.needsAlignment →
      TaskSubmission.alignChild s.sid ∈ node_submissions o B samples) ∧
    (classify_sample o s.gam_size s.gam_mtime s.stats_mtime =
        SampleAction.needsStatsOnly →
      TaskSubmission.statsFollowOn s.sid ∈ node_submissions o B samples) := by
  constructor <;> intro hc <;>
    · unfold node_submissions
      refine List.mem_append_left _ ?_
      rw [List.mem_filterMap]
      exact ⟨s, hs, by simp [leafFor, hc]⟩

/-- Witness for C3's amended statement: in a two-sample batch, the
never-aligned sample's alignment job is a child submission and the
stats-stale sample's stats job is a follow-on submission. -/
theorem c3_amended_witness :
    TaskSubmission.alignChild 0 ∈ node_submissions plannerOpts0 10
        [⟨0, none, none, none⟩, ⟨1, some 1000, some 50, none⟩] ∧
      TaskSubmission.statsFollowOn 1 ∈ node_submissions plannerOpts0 10
        [⟨0, none, none, none⟩, ⟨1, some 1000, some 50, none⟩] :=
  ⟨(c3_amended_submission_kinds plannerOpts0 10
      [⟨0, none, none, none⟩, ⟨1, some 1000, some 50, none⟩]
      ⟨0, none, none, none⟩ (by decide)).1 (by decide),
    (c3_amended_submission_kinds plannerOpts0 10
      [⟨0, none, none, none⟩, ⟨1, some 1000, some 50, none⟩]
      ⟨1, some 1000, some 50, none⟩ (by decide)).2 (by decide)⟩

/-! ## Statistics engine

`run_stats` (lines 1030-1453) streams the decoded alignment records of one
GAM artifact once, in order, keeping the last alignment seen (and, when it
was a scored primary, its matches-per-column ratio) as pending state, and
accumulates the counters and frequency maps of lines 1108-1133.  The JSON
records are embedded structurally; frequency maps (`collections.Counter`)
are functions from key to count. -/

/-- One `edit` object of a mapping: `from_length` and `to_length` (absent
keys decode to 0), and the optional replacement `sequence` whose presence
marks a substitution. -/
structure Edit where
  from_length : Nat
  to_length : Nat
  sequence : Option (List Char)
deriving DecidableEq

/-- The `position` object of a mapping: the optional reference `node_id`
and the `offset` (absent decodes to 0). -/
structure Position where
  node_id : Option Nat
  offset : Nat
deriving DecidableEq

/-- One `mapping` object of an alignment path.  Note the code reads
`is_reverse` from the mapping object itself (line 1225), not from its
position, and that is what is embedded. -/
structure Mapping where
  position : Position
  is_reverse : Bool
  edit : List Edit
deriving DecidableEq

/-- One decoded alignment record.  `path = none` models a record with no
`path` key (the code's `.get("path", {})` distinguishes it from an empty
path only in the duplicate-path comparison); `score = none` models an
unmapped record (`has_key("score")` is false); `mapping_quality = none`
decodes to 0 where it is read. -/
structure AlignmentRecord where
  name : Option String
  sequence : List Char
  score : Option Int
  mapping_quality : Option ℚ
  identity : ℚ
  is_secondary : Bool
  path : Option (List Mapping)
deriving DecidableEq

/-- A frequency map (`collections.Counter`): every key starts at count 0. -/
def Counter (κ : Type) : Type := κ → Nat

/-- The all-zero frequency map. -/
def Counter.zero {κ : Type} : Counter κ := fun _ => 0

/-- `counter[key] += 1`. -/
def Counter.incr {κ : Type} [DecidableEq κ] (c : Counter κ) (k : κ) : Counter κ :=
  fun k' => if k' = k then c k' + 1 else c k'

/-- The `stats` dictionary of lines 1108-1133. -/
structure Stats where
  total_reads : Nat
  total_mapped : Nat
  total_multimapped : Nat
  total_secondary_visible : Nat
  total_sufficiently_unique : Nat
  mapped_lengths : Counter Nat
  unmapped_lengths : Counter Nat
  aligned_lengths : Counter Int
  primary_scores : Counter Int
  primary_mapqs : Counter ℚ
  primary_identities : Counter ℚ
  primary_mismatches : Counter Int
  primary_matches_per_column : Counter ℚ
  primary_indels : Counter Int
  primary_substitutions : Counter Int
  secondary_scores : Counter Int
  secondary_mapqs : Counter ℚ
  secondary_identities : Counter ℚ
  secondary_mismatches : Counter Int
  secondary_matches_per_column : Counter ℚ
  secondary_indels : Counter Int
  secondary_substitutions : Counter Int
  primary_advantage : Counter Int
  run_time : Option ℚ

/-- The fresh `stats` dictionary: every counter zero, every map empty. -/
def initStats (run_time : Option ℚ) : Stats :=
  { total_reads := 0, total_mapped := 0, total_multimapped := 0,
    total_secondary_visible := 0, total_sufficiently_unique := 0,
    mapped_lengths := Counter.zero, unmapped_lengths := Counter.zero,
    aligned_lengths := Counter.zero, primary_scores := Counter.zero,
    primary_mapqs := Counter.zero, primary_identities := Counter.zero,
    primary_mismatches := Counter.zero,
    primary_matches_per_column := Counter.zero,
    primary_indels := Counter.zero, primary_substitutions := Counter.zero,
    secondary_scores := Counter.zero, secondary_mapqs := Counter.zero,
    secondary_identities := Counter.zero,
    secondary_mismatches := Counter.zero,
    secondary_matches_per_column := Counter.zero,
    secondary_indels := Counter.zero,
    secondary_substitutions := Counter.zero,
    primary_advantage := Counter.zero, run_time := run_time }

/-- Python 2 `>=` with a possibly-`None` left operand: `None >= x` is
false for every number `x` (lines 1350, 1396, 1437 compare the pending
matches-per-column, which may be None, against 0.95). -/
def pyGeOpt (a : Option ℚ) (b : ℚ) : Bool :=
  match a with
  | none => false
  | some x => decide (b ≤ x)

/-- The local reference string for one mapping (lines 1217-1239): slice the
node's stored sequence from `offset` — from the end, reverse-complemented,
when `is_reverse` — or the empty string when there is no reference node.
`node_sequences` is the in-memory node-id → sequence map of lines
1074-1089. -/
def mapping_ref_sequence (node_sequences : Nat → List Char) (m : Mapping) :
    List Char :=
  match m.position.node_id with
  | some nid =>
      let ref := node_sequences nid
      if m.is_reverse then
        reverse_complement (if m.position.offset ≠ 0 then
          ref.take (ref.length - m.position.offset) else ref)
      else
        ref.drop m.position.offset
  | none => []

/-- The per-record metric accumulators of lines 1188-1205, plus the
reference cursor `index_in_ref` threaded separately. -/
structure MetricAcc where
  exact_matches : Int
  indels : Int
  substitutions : Int
  aligned_length : Int
  alignment_columns : Int
deriving DecidableEq

/-- Lines 1255-1258: an edit may be a soft clip when it is the first edit
of the first mapping or the last edit of the last mapping. -/
def may_be_soft_clip (edit_number numEdits : Nat)
    (isFirstMapping isLastMapping : Bool) : Bool :=
  (edit_number == 0 && isFirstMapping) ||
    (edit_number == numEdits - 1 && isLastMapping)

/-- The edit-loop body of lines 1248-1316: count reference Ns under the
edit, add the N-discounted column count, extend the aligned length on
length-preserving edits, credit perfect matches, count non-soft-clip
N-free indels, count substitutions, and advance the reference cursor. -/
def processEdit (refSeq : List Char) (maySoftClip : Bool)
    (acc : MetricAcc) (index_in_ref : Nat) (e : Edit) : MetricAcc × Nat :=
  let refN : Nat := count_Ns ((refSeq.drop index_in_ref).take e.from_length)
  let acc := { acc with alignment_columns :=
    acc.alignment_columns + ((max e.to_length e.from_length : Int) - refN) }
  let acc := if e.to_length = e.from_length then
      { acc with aligned_length := acc.aligned_length + ((e.to_length : Int) - refN) }
    else acc
  let acc := if e.sequence.isNone && (e.to_length == e.from_length) then
      { acc with exact_matches := acc.exact_matches + e.from_length }
    else acc
  let acc := if !maySoftClip && (e.to_length != e.from_length) && (refN == 0) then
      { acc with indels := acc.indels + 1 }
    else acc
  let acc := if (e.to_length == e.from_length) && e.sequence.isSome then
      { acc with substitutions := acc.substitutions + ((e.to_length : Int) - refN) }
    else acc
  (acc, index_in_ref + e.from_length)

/-- Walk one mapping's edits in order (lines 1241-1316), starting the
reference cursor at 0 for this mapping. -/
def processMappingEdits (refSeq : List Char) (isFirstMapping isLastMapping : Bool)
    (acc : MetricAcc) (edits : List Edit) : MetricAcc :=
  (edits.enum.foldl
    (fun (st : MetricAcc × Nat) (p : Nat × Edit) =>
      processEdit refSeq
        (may_be_soft_clip p.1 edits.length isFirstMapping isLastMapping)
        st.1 st.2 p.2)
    (acc, 0)).1

/-- Walk all mappings of one scored record (lines 1213-1316). -/
def computeMetricAcc (node_sequences : Nat → List Char)
    (mappings : List Mapping) : MetricAcc :=
  mappings.enum.foldl
    (fun acc (p : Nat × Mapping) =>
      processMappingEdits (mapping_ref_sequence node_sequences p.2)
        (p.1 == 0) (p.1 == mappings.length - 1) acc p.2.edit)
    ⟨0, 0, 0, 0, 0⟩

/-- The state carried across the stream (lines 1135-1138): the last
alignment seen and, when it was a scored record, its matches-per-column
ratio. -/
structure EngineState where
  stats : Stats
  last_alignment : Option AlignmentRecord
  last_matches_per_column : Option ℚ

/-- The scoring-and-accumulation part of the loop body (lines 1177-1419),
reached by every record that survives the secondary-record guards:
a scored record gets its full metric set and is histogrammed under the
secondary namespace (plus a `primary_advantage` entry and, possibly, a
sufficiently-unique credit) or the primary namespace (plus, when the
outgoing pending primary was mapped and never received a secondary, the
synthesized zero-score-secondary advantage entry of lines 1379-1400);
an unscored primary only counts its read and length; afterwards the record
becomes the pending one. -/
def processScoring (node_sequences : Nat → List Char) (st : EngineState)
    (a : AlignmentRecord) : EngineState :=
  let length := a.sequence.length
  match a.score with
  | some score =>
    let acc := computeMetricAcc node_sequences
      ((a.path.getD []))
    let mismatches : Int := (length : Int) - acc.exact_matches
    let matches_per_column : ℚ :=
      if 0 < acc.alignment_columns then
        (acc.exact_matches : ℚ) / (acc.alignment_columns : ℚ)
      else 0
    let mapq : ℚ := a.mapping_quality.getD 0
    if a.is_secondary then
      let lastScore : Int :=
        match st.last_alignment with
        | some la => la.score.getD 0
        | none => 0
      let suff : Bool := pyGeOpt st.last_matches_per_column (95 / 100) &&
        decide (matches_per_column < 85 / 100)
      { stats := { st.stats with
          total_multimapped := st.stats.total_multimapped + 1,
          secondary_scores := Counter.incr st.stats.secondary_scores score,
          secondary_mismatches :=
            Counter.incr st.stats.secondary_mismatches mismatches,
          secondary_indels := Counter.incr st.stats.secondary_indels acc.indels,
          secondary_substitutions :=
            Counter.incr st.stats.secondary_substitutions acc.substitutions,
          secondary_mapqs := Counter.incr st.stats.secondary_mapqs mapq,
          secondary_identities :=
            Counter.incr st.stats.secondary_identities a.identity,
          secondary_matches_per_column :=
            Counter.incr st.stats.secondary_matches_per_column matches_per_column,
          primary_advantage :=
            Counter.incr st.stats.primary_advantage (lastScore - score),
          total_secondary_visible := st.stats.total_secondary_visible + 1,
          total_sufficiently_unique := st.stats.total_sufficiently_unique +
            (if suff then 1 else 0) },
        last_alignment := some a,
        last_matches_per_column := some matches_per_column }
    else
      let synth : Bool :=
        match st.last_alignment with
        | some la => !la.is_secondary && la.score.isSome
        | none => false
      let synthScore : Int :=
        match st.last_alignment with
        | some la => la.score.getD 0
        | none => 0
      { stats := { st.stats with
          total_mapped := st.stats.total_mapped + 1,
          primary_scores := Counter.incr st.stats.primary_scores score,
          primary_mismatches :=
            Counter.incr st.stats.primary_mismatches mismatches,
          primary_indels := Counter.incr st.stats.primary_indels acc.indels,
          primary_substitutions :=
            Counter.incr st.stats.primary_substitutions acc.substitutions,
          primary_mapqs := Counter.incr st.stats.primary_mapqs mapq,
          primary_identities := Counter.incr st.stats.primary_identities a.identity,
          primary_matches_per_column :=
            Counter.incr st.stats.primary_matches_per_column matches_per_column,
          mapped_lengths := Counter.incr st.stats.mapped_lengths length,
          aligned_lengths :=
            Counter.incr st.stats.aligned_lengths acc.aligned_length,
          total_reads := st.stats.total_reads + 1,
          primary_advantage := if synth then
              Counter.incr st.stats.primary_advantage synthScore
            else st.stats.primary_advantage,
          total_secondary_visible := st.stats.total_secondary_visible +
            (if synth then 1 else 0),
          total_sufficiently_unique := st.stats.total_sufficiently_unique +
            (if synth && pyGeOpt st.last_matches_per_column (95 / 100) then 1
             else 0) },
        last_alignment := some a,
        last_matches_per_column := some matches_per_column }
  | none =>
    if !a.is_secondary then
      { stats := { st.stats with
          total_reads := st.stats.total_reads + 1,
          unmapped_lengths := Counter.incr st.stats.unmapped_lengths length },
        last_alignment := some a,
        last_matches_per_column := none }
    else
      { stats := st.stats, last_alignment := some a,
        last_matches_per_column := none }

/-- The whole loop body of lines 1140-1419 for one record: a secondary
record whose predecessor is missing, has another name, or is itself
secondary aborts the stream (lines 1147-1158, the `FormatError` of the
spec); a secondary whose path equals its primary's path only replaces the
pending state (lines 1160-1174); every other record goes through
`processScoring`. -/
def stepAlignment (node_sequences : Nat → List Char) (st : EngineState)
    (a : AlignmentRecord) : Except String EngineState :=
  if a.is_secondary then
    match st.last_alignment with
    | none =>
        Except.error "secondary alignment comes after nothing instead of corresponding primary alignment"
    | some la =>
        if la.name ≠ a.name ∨ la.is_secondary = true then
          Except.error "secondary alignment comes after alignment of another read instead of corresponding primary alignment"
        else if a.path = la.path then
          Except.ok { stats := st.stats, last_alignment := some a,
                      last_matches_per_column := none }
        else
          Except.ok (processScoring node_sequences st a)
  else
    Except.ok (processScoring node_sequences st a)

/-- Run the stream loop over the remaining records, stopping at the first
error. -/
def processAll (node_sequences : Nat → List Char) :
    EngineState → List AlignmentRecord → Except String EngineState
  | st, [] => Except.ok st
  | st, a :: rest =>
    match stepAlignment node_sequences st a with
    | Except.error e => Except.error e
    | Except.ok st2 => processAll node_sequences st2 rest

/-- Finalization (lines 1421-1441): when the stream's final record is a
scored primary, it never received a secondary, so synthesize the implicit
zero-score secondary for it. -/
def finalizeStats (st : EngineState) : Stats :=
  match st.last_alignment with
  | some la =>
      if !la.is_secondary && la.score.isSome then
        { st.stats with
          primary_advantage :=
            Counter.incr st.stats.primary_advantage (la.score.getD 0),
          total_secondary_visible := st.stats.total_secondary_visible + 1,
          total_sufficiently_unique := st.stats.total_sufficiently_unique +
            (if pyGeOpt st.last_matches_per_column (95 / 100) then 1 else 0) }
      else st.stats
  | none => st.stats

/-- The fresh engine state: zeroed stats, no pending alignment. -/
def initState (run_time : Option ℚ) : EngineState :=
  { stats := initStats run_time, last_alignment := none,
    last_matches_per_column := none }

/-- `run_stats`' stream pass as a whole (lines 1108-1453): fold the loop
body over the decoded records and finalize.  The stats dictionary is
serialized and uploaded only after the entire stream has been processed
(lines 1443-1453), so an error anywhere in the stream means no stats
artifact is written — hence the `Except.error` result carries no stats. -/
def run_stats (node_sequences : Nat → List Char) (run_time : Option ℚ)
    (alignments : List AlignmentRecord) : Except String Stats :=
  match processAll node_sequences (initState run_time) alignments with
  | Except.error e => Except.error e
  | Except.ok st => Except.ok (finalizeStats st)

/-- A node-sequence map for concrete runs: every node stores ACGT. -/
def nodeSeq0 : Nat → List Char := fun _ => ['A', 'C', 'G', 'T']

/-- A mapped primary record of read A with score 50 and a one-mapping,
one-perfect-match-edit path P1. -/
def prim0 : AlignmentRecord :=
  { name := some "A", sequence := ['A', 'C'], score := some 50,
    mapping_quality := none, identity := 1, is_secondary := false,
    path := some [{ position := { node_id := some 1, offset := 0 },
                    is_reverse := false,
                    edit := [{ from_length := 2, to_length := 2, sequence := none }] }] }

/-- C7: the first edit of the first mapping always carries the
may-be-soft-clip flag, and processing an insertion edit with
`from_length = 0` and `to_length = 5` under that flag (its reference span
is empty, hence N-free) leaves the indel count unchanged while adding
exactly 5 to the alignment-column total. -/
theorem c7_leading_insertion_soft_clip (refSeq : List Char) (acc : MetricAcc)
    (index_in_ref numEdits : Nat) (isLastMapping : Bool) (e : Edit)
    (hfrom : e.from_length = 0) (hto : e.to_length = 5) :
    may_be_soft_clip 0 numEdits true isLastMapping = true ∧
      (processEdit refSeq (may_be_soft_clip 0 numEdits true isLastMapping)
        acc index_in_ref e).1.indels = acc.indels ∧
      (processEdit refSeq (may_be_soft_clip 0 numEdits true isLastMapping)
        acc index_in_ref e).1.alignment_columns = acc.alignment_columns + 5 := by
  have hflag : may_be_soft_clip 0 numEdits true isLastMapping = true := by
    simp [may_be_soft_clip]
  refine ⟨hflag, ?_, ?_⟩ <;>
    simp [processEdit, hflag, hfrom, hto, count_Ns]

/-- Witness for C7: a fresh accumulator and a leading 5-base insertion. -/
theorem c7_witness :
    may_be_soft_clip 0 3 true false = true ∧
      (processEdit ['A', 'C'] (may_be_soft_clip 0 3 true false)
        ⟨0, 0, 0, 0, 0⟩ 0 ⟨0, 5, some ['G', 'G', 'G', 'G', 'G']⟩).1.indels =
        (⟨0, 0, 0, 0, 0⟩ : MetricAcc).indels ∧
      (processEdit ['A', 'C'] (may_be_soft_clip 0 3 true false)
        ⟨0, 0, 0, 0, 0⟩ 0 ⟨0, 5, some ['G', 'G', 'G', 'G', 'G']⟩).1.alignment_columns =
        (⟨0, 0, 0, 0, 0⟩ : MetricAcc).alignment_columns + 5 :=
  c7_leading_insertion_soft_clip ['A', 'C'] ⟨0, 0, 0, 0, 0⟩ 0 3 false
    ⟨0, 5, some ['G', 'G', 'G', 'G', 'G']⟩ rfl rfl

/-- C5: a secondary record that passes the pairing guards and whose path is
structurally identical to the pending primary's path leaves the whole stats
record — every scalar counter and every frequency map — untouched; the step
only replaces the pending alignment with this record and clears the pending
matches-per-column (lines 1160-1174). -/
theorem c5_duplicate_path_secondary_only_repends (node_sequences : Nat → List Char)
    (st : EngineState) (a la : AlignmentRecord)
    (hsec : a.is_secondary = true) (hlast : st.last_alignment = some la)
    (hname : la.name = a.name) (hprim : la.is_secondary = false)
    (hpath : a.path = la.path) :
    stepAlignment node_sequences st a =
      Except.ok { stats := st.stats, last_alignment := some a,
                  last_matches_per_column := none } := by
  simp [stepAlignment, hsec, hlast, hname, hprim, hpath]

/-- A duplicate-path secondary for read A: same path as `prim0`. -/
def dup0 : AlignmentRecord :=
  { name := some "A", sequence := ['A', 'C'], score := some 30,
    mapping_quality := none, identity := 1, is_secondary := true,
    path := prim0.path }

/-- The engine state after `prim0` was seen: it is pending with a perfect
matches-per-column ratio. -/
def engineSt0 : EngineState :=
  { stats := initStats none, last_alignment := some prim0,
    last_matches_per_column := some 1 }

/-- Witness for C5: processing the duplicate-path secondary `dup0` after
the primary `prim0` keeps the stats value and only replaces the pending
record. -/
theorem c5_witness :
    stepAlignment nodeSeq0 engineSt0 dup0 =
      Except.ok { stats := engineSt0.stats, last_alignment := some dup0,
                  last_matches_per_column := none } :=
  c5_duplicate_path_secondary_only_repends nodeSeq0 engineSt0 dup0 prim0
    rfl rfl rfl rfl rfl

/-- C6: running the engine on a one-record stream holding a single scored
(mapped) primary with score 50 synthesizes the implicit zero-score
secondary at finalization: the resulting stats give the score-50 advantage
bucket count 1 and report exactly one visible secondary. -/
theorem c6_single_primary_synthesis (node_sequences : Nat → List Char)
    (run_time : Option ℚ) (a : AlignmentRecord)
    (hprim : a.is_secondary = false) (hscore : a.score = some 50) :
    ∃ s, run_stats node_sequences run_time [a] = Except.ok s ∧
      s.primary_advantage 50 = 1 ∧ s.total_secondary_visible = 1 := by
  refine ⟨finalizeStats (processScoring node_sequences (initState run_time) a),
    ?_, ?_, ?_⟩
  · simp [run_stats, processAll, stepAlignment, hprim]
  · simp [processScoring, finalizeStats, initState, initStats, hprim, hscore,
      Counter.incr, Counter.zero]
  · simp [processScoring, finalizeStats, initState, initStats, hprim, hscore]

/-- Witness for C6 at the concrete record `prim0`. -/
theorem c6_witness :
    ∃ s, run_stats nodeSeq0 none [prim0] = Except.ok s ∧
      s.primary_advantage 50 = 1 ∧ s.total_secondary_visible = 1 :=
  c6_single_primary_synthesis nodeSeq0 none prim0 rfl rfl

/-- Every branch of the scoring path stores the processed record as the new
pending alignment (lines 1417-1418). -/
theorem processScoring_last (node_sequences : Nat → List Char)
    (st : EngineState) (a : AlignmentRecord) :
    (processScoring node_sequences st a).last_alignment = some a := by
  unfold processScoring
  cases hsc : a.score <;> simp [hsc] <;> split_ifs <;> rfl

/-- Every record the loop body accepts becomes the pending alignment. -/
theorem stepAlignment_ok_last (node_sequences : Nat → List Char)
    (st : EngineState) (a : AlignmentRecord) (st2 : EngineState)
    (h : stepAlignment node_sequences st a = Except.ok st2) :
    st2.last_alignment = some a := by
  unfold stepAlignment at h
  by_cases hsec : a.is_secondary
  · rw [if_pos hsec] at h
    cases hl : st.last_alignment with
    | none => rw [hl] at h; cases h
    | some la =>
      rw [hl] at h
      dsimp only at h
      split_ifs at h <;>
        (injection h with h2
         rw [← h2]
         try exact processScoring_last node_sequences st a)
  · rw [if_neg hsec] at h
    injection h with h2
    rw [← h2]
    exact processScoring_last node_sequences st a

/-- Splitting the stream pass at a concatenation point. -/
theorem processAll_append (node_sequences : Nat → List Char)
    (l1 l2 : List AlignmentRecord) :
    ∀ st0, processAll node_sequences st0 (l1 ++ l2) =
      match processAll node_sequences st0 l1 with
      | Except.error e => Except.error e
      | Except.ok st1 => processAll node_sequences st1 l2 := by
  induction l1 with
  | nil => intro st0; simp [processAll]
  | cons a t ih =>
    intro st0
    simp only [List.cons_append, processAll]
    cases hs : stepAlignment node_sequences st0 a <;> simp [hs, ih]

/-- After a successful pass over a stream, the pending alignment is the
stream's final record (or the starting pending alignment for the empty
stream). -/
theorem processAll_ok_last (node_sequences : Nat → List Char) :
    ∀ (recs : List AlignmentRecord) (st0 st : EngineState),
      processAll node_sequences st0 recs = Except.ok st →
      st.last_alignment = (match recs.getLast? with
        | none => st0.last_alignment
        | some a => some a) := by
  intro recs
  induction recs with
  | nil =>
    intro st0 st h
    simp only [processAll] at h
    injection h with h2
    simp [h2]
  | cons a t ih =>
    intro st0 st h
    simp only [processAll] at h
    cases hs : stepAlignment node_sequences st0 a with
    | error e => rw [hs] at h; cases h
    | ok st1 =>
      rw [hs] at h
      cases t with
      | nil =>
        simp only [processAll] at h
        injection h with h2
        rw [← h2]
        simp [stepAlignment_ok_last node_sequences st0 a st1 hs]
      | cons b t2 =>
        have h1 := ih st1 st h
        have hne : (b :: t2 : List AlignmentRecord) ≠ [] := by simp
        obtain ⟨x, hx⟩ := Option.isSome_iff_exists.mp
          (List.getLast?_isSome.mpr hne)
        rw [List.getLast?_cons_cons, hx]
        rw [hx] at h1
        exact h1

/-- C4: a secondary record whose predecessor in the stream is missing,
belongs to another read name, or is itself secondary makes the whole engine
invocation abort with an error (the `FormatError` of lines 1147-1158), and
`run_stats` returns no stats value — the stats artifact is written only
after the entire stream has been processed (lines 1443-1453), so nothing is
stored. -/
theorem c4_unmatched_secondary_aborts (node_sequences : Nat → List Char)
    (run_time : Option ℚ) (pre post : List AlignmentRecord)
    (a : AlignmentRecord) (hsec : a.is_secondary = true)
    (hbad : ∀ p, pre.getLast? = some p →
      p.name ≠ a.name ∨ p.is_secondary = true) :
    ∃ msg, run_stats node_sequences run_time (pre ++ a :: post) =
      Except.error msg := by
  unfold run_stats
  rw [processAll_append]
  cases hp : processAll node_sequences (initState run_time) pre with
  | error e => exact ⟨e, by simp⟩
  | ok st1 =>
    have hlast := processAll_ok_last node_sequences pre (initState run_time)
      st1 hp
    have hstep : ∃ msg, stepAlignment node_sequences st1 a =
        Except.error msg := by
      unfold stepAlignment
      rw [if_pos hsec]
      cases hl : st1.last_alignment with
      | none => exact ⟨_, rfl⟩
      | some p =>
        have hpre : pre.getLast? = some p := by
          cases hg : pre.getLast? with
          | none =>
            rw [hg, hl] at hlast
            simp [initState] at hlast
          | some q =>
            rw [hg, hl] at hlast
            injection hlast with h2
            rw [h2]
        have hguard : p.name ≠ a.name ∨ p.is_secondary = true := hbad p hpre
        dsimp only
        rw [if_pos hguard]
        exact ⟨_, rfl⟩
    rcases hstep with ⟨msg, hmsg⟩
    refine ⟨msg, ?_⟩
    simp [processAll, hmsg]

/-- Witness for C4 at the spec's scenario: the stream holding a single
secondary record and nothing else errors out. -/
theorem c4_witness :
    ∃ msg, run_stats nodeSeq0 none ([] ++ dup0 :: []) = Except.error msg :=
  c4_unmatched_secondary_aborts nodeSeq0 none [] [] dup0 rfl
    (fun p hp => by simp at hp)

/-- The claimed invariant, read off a stream-pass result: whenever the pass
has produced a state, its mapped count is bounded by its read count (a
failed pass produced no stats at all). -/
def mappedLeReadsState : Except String EngineState → Prop
  | Except.ok st => st.stats.total_mapped ≤ st.stats.total_reads
  | Except.error _ => True

/-- The claimed invariant, read off a finished run. -/
def mappedLeReadsStats : Except String Stats → Prop
  | Except.ok s => s.total_mapped ≤ s.total_reads
  | Except.error _ => True

/-- The scoring path preserves `total_mapped ≤ total_reads`: a scored
primary increments both (lines 1360, 1377), an unscored primary increments
only `total_reads` (line 1406), and secondary records touch neither. -/
theorem processScoring_mapped_le (node_sequences : Nat → List Char)
    (st : EngineState) (a : AlignmentRecord)
    (hI : st.stats.total_mapped ≤ st.stats.total_reads) :
    (processScoring node_sequences st a).stats.total_mapped ≤
      (processScoring node_sequences st a).stats.total_reads := by
  unfold processScoring
  cases hsc : a.score <;> simp [hsc] <;> split_ifs <;> simp <;> omega

/-- The loop body preserves `total_mapped ≤ total_reads` on every accepted
record. -/
theorem stepAlignment_mapped_le (node_sequences : Nat → List Char)
    (st : EngineState) (a : AlignmentRecord) (st2 : EngineState)
    (h : stepAlignment node_sequences st a = Except.ok st2)
    (hI : st.stats.total_mapped ≤ st.stats.total_reads) :
    st2.stats.total_mapped ≤ st2.stats.total_reads := by
  unfold stepAlignment at h
  by_cases hsec : a.is_secondary
  · rw [if_pos hsec] at h
    cases hl : st.last_alignment with
    | none => rw [hl] at h; cases h
    | some la =>
      rw [hl] at h
      dsimp only at h
      split_ifs at h <;>
        (injection h with h2
         rw [← h2]
         first
         | exact hI
         | exact processScoring_mapped_le node_sequences st a hI)
  · rw [if_neg hsec] at h
    injection h with h2
    rw [← h2]
    exact processScoring_mapped_le node_sequences st a hI

/-- The stream pass preserves `total_mapped ≤ total_reads` from any
starting state that satisfies it. -/
theorem processAll_mapped_le (node_sequences : Nat → List Char) :
    ∀ (recs : List AlignmentRecord) (st0 : EngineState),
      st0.stats.total_mapped ≤ st0.stats.total_reads →
      mappedLeReadsState (processAll node_sequences st0 recs) := by
  intro recs
  induction recs with
  | nil =>
    intro st0 h0
    simpa [processAll, mappedLeReadsState] using h0
  | cons a t ih =>
    intro st0 h0
    simp only [processAll]
    cases hs : stepAlignment node_sequences st0 a with
    | error e => simp [mappedLeReadsState]
    | ok st1 =>
      exact ih st1 (stepAlignment_mapped_le node_sequences st0 a st1 hs h0)

/-- Finalization leaves `total_mapped` and `total_reads` unchanged. -/
theorem finalizeStats_mapped_le (st : EngineState)
    (hI : st.stats.total_mapped ≤ st.stats.total_reads) :
    (finalizeStats st).total_mapped ≤ (finalizeStats st).total_reads := by
  unfold finalizeStats
  cases hl : st.last_alignment <;> simp [hl] <;>
    first
    | (split_ifs <;> simpa using hI)
    | simpa using hI

/-- C10: the invariant `total_mapped ≤ total_reads` holds at every point of
the single pass — the state after processing any stream of records (any
mid-stream point is the final state of the pass over that prefix, which is
itself a stream quantified over here) — and in the finalized stats of every
successful run: scored primaries increment both counters, unmapped
primaries increment only `total_reads`, and secondary records increment
neither. -/
theorem c10_mapped_le_reads (node_sequences : Nat → List Char)
    (run_time : Option ℚ) (recs : List AlignmentRecord) :
    mappedLeReadsState (processAll node_sequences (initState run_time) recs) ∧
      mappedLeReadsStats (run_stats node_sequences run_time recs) := by
  have h0 : (initState run_time).stats.total_mapped ≤
      (initState run_time).stats.total_reads := by
    simp [initState, initStats]
  have h1 := processAll_mapped_le node_sequences recs (initState run_time) h0
  refine ⟨h1, ?_⟩
  unfold run_stats
  cases hp : processAll node_sequences (initState run_time) recs with
  | error e => simp [mappedLeReadsStats]
  | ok st =>
    rw [hp] at h1
    simp only [mappedLeReadsState] at h1
    simpa [mappedLeReadsStats] using finalizeStats_mapped_le st h1
